import Mathlib

/-!
Shallow embedding of `src/utils/progress_bar.rs` (crate `rim`): the
`ProgressPos` clamped position tracker, the `Progress` handle with its
message and position callbacks, and the `send_and_print` helper.
`f32` values are modelled as rationals, `anyhow::Result<()>` as
`Except Err Unit`, and printing to stdout as the list of lines written.
-/

/-- Error values carried by `anyhow::Result`, modelled as strings. -/
abbrev Err := String

/-- `struct ProgressPos(Mutex<f32>)`: the tracker's clamped position.
The mutex only serialises access; the sequential state is the value. -/
structure ProgressPos where
  val : ℚ
deriving DecidableEq

/-- `ProgressPos::new(value)` -/
def ProgressPos.new (value : ℚ) : ProgressPos := ⟨value⟩

/-- `ProgressPos::load()` -/
def ProgressPos.load (p : ProgressPos) : ℚ := p.val

/-- `ProgressPos::add(value)`: `*guard = (*guard + value).min(100.0)` -/
def ProgressPos.add (p : ProgressPos) (value : ℚ) : ProgressPos :=
  ⟨min (p.val + value) 100⟩

/-- A finite sequence of `add` calls, applied in order. -/
def ProgressPos.addAll (p : ProgressPos) (ds : List ℚ) : ProgressPos :=
  ds.foldl ProgressPos.add p

/-- `pub struct Progress<'a>`: shared tracker, target length, two
borrowed callbacks (here modelled as pure result-returning functions). -/
structure Progress where
  pos : ProgressPos
  len : ℚ
  msg_callback : String → Except Err Unit
  pos_callback : ℚ → Except Err Unit

/-- `Progress::new(msg_cb, pos_cb)` -/
def Progress.new (msg_cb : String → Except Err Unit)
    (pos_cb : ℚ → Except Err Unit) : Progress :=
  { pos := ProgressPos.new 0
    len := 0
    msg_callback := msg_cb
    pos_callback := pos_cb }

/-- `Progress::with_len(len)`: consuming builder setting only `len`. -/
def Progress.with_len (p : Progress) (len : ℚ) : Progress :=
  { p with len := len }

/-- `Progress::show_msg(msg)` -/
def Progress.show_msg (p : Progress) (msg : String) : Except Err Unit :=
  p.msg_callback msg

/-- `Progress::inc(value)`: resolve the delta (`value.unwrap_or(self.len)`),
add it to the tracker, then invoke the position callback on the freshly
loaded position, propagating its failure via `?`. Returns the handle's
post-state together with the returned `Result`. -/
def Progress.inc (p : Progress) (value : Option ℚ) : Progress × Except Err Unit :=
  let delta := value.getD p.len
  let p2 := { p with pos := p.pos.add delta }
  let res : Except Err Unit :=
    match p2.pos_callback p2.pos.load with
    | .error e => .error e
    | .ok _ => .ok ()
  (p2, res)

/-- The argument `inc` passes to the position callback:
`self.pos.load()` evaluated after `self.pos.add(delta)`. -/
def Progress.incArg (p : Progress) (value : Option ℚ) : ℚ :=
  (p.pos.add (value.getD p.len)).load

/-- `send_and_print(msg, progress)`: the lines printed to stdout paired
with the returned `Result`. `println!` always runs first; `show_msg` runs
only when a handle is supplied, its failure propagated via `?`. -/
def send_and_print (msg : String) (progress : Option Progress) :
    List String × Except Err Unit :=
  ([msg],
    match progress with
    | some prog => prog.show_msg msg
    | none => .ok ())

/-- A message callback that always succeeds (for concrete instances). -/
def okMsgCb : String → Except Err Unit := fun _ => .ok ()

/-- A position callback that always succeeds (for concrete instances). -/
def okPosCb : ℚ → Except Err Unit := fun _ => .ok ()

/-- A position callback that always fails (for concrete instances). -/
def failPosCb : ℚ → Except Err Unit := fun _ => .error "callback failed"

/-- Unfolding lemma for a single clamped `add`. -/
theorem ProgressPos.add_val (p : ProgressPos) (d : ℚ) :
    (p.add d).val = min (p.val + d) 100 := rfl

/-- `add` never produces a value above the clamp ceiling. -/
theorem ProgressPos.add_le_100 (p : ProgressPos) (d : ℚ) :
    (p.add d).val ≤ 100 := min_le_right _ _

/-- Any sequence of `add` calls keeps a position at or below 100. -/
theorem ProgressPos.addAll_le_100 (ds : List ℚ) :
    ∀ p : ProgressPos, p.val ≤ 100 → (p.addAll ds).val ≤ 100 := by
  induction ds with
  | nil => intro p hp; exact hp
  | cons d ds ih =>
      intro p _
      exact ih (p.add d) (ProgressPos.add_le_100 p d)

/-- Folding clamped adds of non-negative deltas over a position at or
below 100 computes the clamped total. -/
theorem ProgressPos.addAll_val (ds : List ℚ) :
    ∀ p : ProgressPos, p.val ≤ 100 → (∀ d ∈ ds, 0 ≤ d) →
      (p.addAll ds).val = min (p.val + ds.sum) 100 := by
  induction ds with
  | nil =>
      intro p hp _
      simp only [ProgressPos.addAll, List.foldl_nil, List.sum_nil, add_zero]
      exact (min_eq_left hp).symm
  | cons d ds ih =>
      intro p hp h
      have hd : 0 ≤ d := h d (List.mem_cons_self d ds)
      have hds : ∀ x ∈ ds, 0 ≤ x := fun x hx => h x (List.mem_cons_of_mem d hx)
      have hs : 0 ≤ ds.sum := List.sum_nonneg hds
      show ((p.add d).addAll ds).val = min (p.val + (d :: ds).sum) 100
      rw [ih (p.add d) (ProgressPos.add_le_100 p d) hds, ProgressPos.add_val,
        List.sum_cons]
      rcases le_total (p.val + d) 100 with hle | hge
      · rw [min_eq_left hle, add_assoc]
      · have h1 : (100 : ℚ) ≤ 100 + ds.sum := by linarith
        have h2 : (100 : ℚ) ≤ p.val + (d + ds.sum) := by linarith
        rw [min_eq_right hge, min_eq_right h1, min_eq_right h2]

/-- A sequence of non-negative adds never moves a position at or below
100 downward. -/
theorem ProgressPos.le_addAll (ds : List ℚ) (p : ProgressPos)
    (hp : p.val ≤ 100) (h : ∀ d ∈ ds, 0 ≤ d) :
    p.val ≤ (p.addAll ds).val := by
  rw [ProgressPos.addAll_val ds p hp h]
  exact le_min (by linarith [List.sum_nonneg h]) hp

/-- C1: `add(d)` sets the position to `min(p + d, 100)`, hence after any
`add` the position never exceeds 100. -/
theorem c1_add_is_clamped_sum (p : ProgressPos) (d : ℚ) :
    (p.add d).load = min (p.load + d) 100 ∧ (p.add d).load ≤ 100 :=
  ⟨rfl, min_le_right _ _⟩

/-- C2: for every finite sequence of non-negative deltas applied via
`add` to a tracker constructed at 0, the final `load` equals
`min(sum of the deltas, 100)`. -/
theorem c2_sum_clamped (ds : List ℚ) (h : ∀ d ∈ ds, 0 ≤ d) :
    ((ProgressPos.new 0).addAll ds).load = min ds.sum 100 := by
  have h100 : (ProgressPos.new 0).val ≤ 100 := by norm_num [ProgressPos.new]
  show ((ProgressPos.new 0).addAll ds).val = min ds.sum 100
  rw [ProgressPos.addAll_val ds (ProgressPos.new 0) h100 h]
  norm_num [ProgressPos.new]

/-- C2 witness: three deltas summing past the ceiling clamp to 100. -/
theorem c2_sum_clamped_witness :
    ((ProgressPos.new 0).addAll [30, 50, 40]).load = min ([30, 50, 40] : List ℚ).sum 100 :=
  c2_sum_clamped [30, 50, 40] (by norm_num)

/-- C3 counterexample: with an arbitrary (negative) delta, `load`
decreases: starting at 5, `add(-1)` yields 4 < 5. -/
theorem c3_counterexample :
    ((ProgressPos.new 5).add (-1)).load < (ProgressPos.new 5).load := by
  show min ((5 : ℚ) + -1) 100 < 5
  norm_num

/-- C3 amended: for every tracker state at or below 100 and every
sequence of non-negative deltas, `load` is non-decreasing across the
sequence: after further adds it is at least the value after a prefix. -/
theorem c3_load_monotone (p : ProgressPos) (ds₁ ds₂ : List ℚ)
    (hp : p.val ≤ 100) (h : ∀ d ∈ ds₁ ++ ds₂, 0 ≤ d) :
    (p.addAll ds₁).load ≤ (p.addAll (ds₁ ++ ds₂)).load := by
  have hds₁ : ∀ d ∈ ds₁, 0 ≤ d := fun d hd => h d (List.mem_append_left ds₂ hd)
  have hds₂ : ∀ d ∈ ds₂, 0 ≤ d := fun d hd => h d (List.mem_append_right ds₁ hd)
  have hmid : (p.addAll ds₁).val ≤ 100 := ProgressPos.addAll_le_100 ds₁ p hp
  show (p.addAll ds₁).val ≤ (p.addAll (ds₁ ++ ds₂)).val
  have hsplit : p.addAll (ds₁ ++ ds₂) = (p.addAll ds₁).addAll ds₂ := by
    simp only [ProgressPos.addAll, List.foldl_append]
  rw [hsplit]
  exact ProgressPos.le_addAll ds₂ (p.addAll ds₁) hmid hds₂

/-- C3 witness: prefix [10, 20] then further adds [5, 90] from 0 never
decrease the loaded value. -/
theorem c3_load_monotone_witness :
    ((ProgressPos.new 0).addAll [10, 20]).load ≤
      ((ProgressPos.new 0).addAll ([10, 20] ++ [5, 90])).load :=
  c3_load_monotone (ProgressPos.new 0) [10, 20] [5, 90] (by norm_num [ProgressPos.new])
    (by norm_num)

/-- C4 counterexample: at position 100, `add(-1)` does not leave the
position at 100 (it drops to 99): the claim fails for negative deltas. -/
theorem c4_counterexample :
    ((ProgressPos.new 100).add (-1)).load ≠ 100 := by
  show min ((100 : ℚ) + -1) 100 ≠ 100
  norm_num

/-- C4 amended: once the position is 100, any further `add` with a
non-negative delta leaves it at exactly 100. -/
theorem c4_clamp_idempotent (p : ProgressPos) (d : ℚ)
    (hp : p.load = 100) (hd : 0 ≤ d) :
    (p.add d).load = 100 := by
  show min (p.val + d) 100 = 100
  have hv : p.val = 100 := hp
  rw [hv, min_eq_right (by linarith)]

/-- C4 witness: at 100, adding 7 stays exactly at 100. -/
theorem c4_clamp_idempotent_witness :
    ((ProgressPos.new 100).add 7).load = 100 :=
  c4_clamp_idempotent (ProgressPos.new 100) 7 rfl (by norm_num)

/-- C5: `inc(None)` on a handle with `len = L` and position `P` yields new
position `min(P + L, 100)` and is observationally identical to
`inc(Some(L))`: same post-state, same callback argument, same result. -/
theorem c5_inc_none_eq_inc_len (p : Progress) :
    (p.inc none).1.pos.load = min (p.pos.load + p.len) 100 ∧
      p.inc none = p.inc (some p.len) ∧
      p.incArg none = p.incArg (some p.len) :=
  ⟨rfl, rfl, rfl⟩

/-- `inc` returns exactly the position callback's result (the `?` plus
`Ok(())` tail is the identity on a unit-valued `Result`). -/
theorem Progress.inc_snd_eq (p : Progress) (value : Option ℚ) :
    (p.inc value).2 = p.pos_callback (p.incArg value) := by
  show (match p.pos_callback ((p.pos.add (value.getD p.len)).load) with
    | Except.error e => (Except.error e : Except Err Unit)
    | Except.ok _ => Except.ok ()) =
      p.pos_callback ((p.pos.add (value.getD p.len)).load)
  cases p.pos_callback ((p.pos.add (value.getD p.len)).load) with
  | error e => rfl
  | ok u => rfl

/-- C6: if the position callback fails, `inc` returns that failure, and
the tracker position has already been updated to the new clamped value
before the callback was invoked: the post-state holds the clamped
position regardless, and the callback argument is that updated value. -/
theorem c6_callback_failure_propagates (p : Progress) (value : Option ℚ)
    (e : Err) (h : p.pos_callback (p.incArg value) = .error e) :
    (p.inc value).2 = .error e ∧
      (p.inc value).1.pos = p.pos.add (value.getD p.len) ∧
      p.incArg value = ((p.inc value).1.pos).load := by
  refine ⟨?_, rfl, rfl⟩
  rw [Progress.inc_snd_eq, h]

/-- C6 witness: an always-failing position callback makes `inc(Some 3)`
fail while the tracker still advanced to the clamped value. -/
theorem c6_callback_failure_propagates_witness :
    ((Progress.new okMsgCb failPosCb).inc (some 3)).2 = .error "callback failed" ∧
      ((Progress.new okMsgCb failPosCb).inc (some 3)).1.pos =
        (Progress.new okMsgCb failPosCb).pos.add
          ((some (3 : ℚ)).getD (Progress.new okMsgCb failPosCb).len) ∧
      (Progress.new okMsgCb failPosCb).incArg (some 3) =
        (((Progress.new okMsgCb failPosCb).inc (some 3)).1.pos).load :=
  c6_callback_failure_propagates (Progress.new okMsgCb failPosCb) (some 3)
    "callback failed" rfl

/-- C7 counterexample: from position 0, `inc(Some(-5))` with an
always-succeeding callback returns success yet passes the negative
value -5, outside [0, 100], to the position callback. -/
theorem c7_counterexample :
    ((Progress.new okMsgCb okPosCb).inc (some (-5))).2 = .ok () ∧
      (Progress.new okMsgCb okPosCb).incArg (some (-5)) < 0 := by
  refine ⟨rfl, ?_⟩
  show min ((0 : ℚ) + -5) 100 < 0
  norm_num

/-- C7 amended: whenever the tracker position is non-negative and the
effective delta is non-negative, every `inc` call that returns
successfully passed the position callback a value in [0, 100]. -/
theorem c7_callback_arg_in_range (p : Progress) (value : Option ℚ)
    (h0 : 0 ≤ p.pos.val) (hd : 0 ≤ value.getD p.len)
    (hok : (p.inc value).2 = .ok ()) :
    0 ≤ p.incArg value ∧ p.incArg value ≤ 100 := by
  constructor
  · show 0 ≤ min (p.pos.val + value.getD p.len) 100
    exact le_min (by linarith) (by norm_num)
  · show min (p.pos.val + value.getD p.len) 100 ≤ 100
    exact min_le_right _ _

/-- C7 witness: a successful `inc(Some 40)` from 0 reported 40 ∈ [0,100]. -/
theorem c7_callback_arg_in_range_witness :
    0 ≤ (Progress.new okMsgCb okPosCb).incArg (some 40) ∧
      (Progress.new okMsgCb okPosCb).incArg (some 40) ≤ 100 :=
  c7_callback_arg_in_range (Progress.new okMsgCb okPosCb) (some 40)
    (le_refl 0) (by norm_num) rfl

/-- C8: `send_and_print` prints the message to stdout unconditionally,
and its result is `show_msg`'s result when a handle is supplied (its
failure propagated) and success when none is. -/
theorem c8_send_and_print (msg : String) (progress : Option Progress) :
    (send_and_print msg progress).1 = [msg] ∧
      (send_and_print msg progress).2 =
        (match progress with
          | some prog => prog.show_msg msg
          | none => .ok ()) :=
  ⟨rfl, rfl⟩

/-- C9: `new` builds a handle with position 0 and `len = 0`; `with_len`
sets `len` and leaves the tracker (hence the position) and both
callbacks unchanged. -/
theorem c9_new_and_with_len (mcb : String → Except Err Unit)
    (pcb : ℚ → Except Err Unit) (p : Progress) (L : ℚ) :
    (Progress.new mcb pcb).pos.load = 0 ∧ (Progress.new mcb pcb).len = 0 ∧
      (p.with_len L).len = L ∧ (p.with_len L).pos = p.pos ∧
      (p.with_len L).msg_callback = p.msg_callback ∧
      (p.with_len L).pos_callback = p.pos_callback :=
  ⟨rfl, rfl, rfl, rfl, rfl, rfl⟩

/-- C10: on a freshly built handle (`len = 0`), `inc(None)` leaves the
tracker position unchanged, still invokes the position callback once
with that unchanged position, and returns the callback's result. -/
theorem c10_inc_none_with_zero_len (mcb : String → Except Err Unit)
    (pcb : ℚ → Except Err Unit) :
    ((Progress.new mcb pcb).inc none).1.pos = (Progress.new mcb pcb).pos ∧
      (Progress.new mcb pcb).incArg none = (Progress.new mcb pcb).pos.load ∧
      ((Progress.new mcb pcb).inc none).2 =
        pcb ((Progress.new mcb pcb).pos.load) := by
  have harg : (Progress.new mcb pcb).incArg none = 0 := by
    show min ((0 : ℚ) + 0) 100 = 0
    norm_num
  refine ⟨?_, harg, ?_⟩
  · show ProgressPos.mk (min ((0 : ℚ) + 0) 100) = ProgressPos.mk 0
    norm_num
  · rw [Progress.inc_snd_eq, harg]
    rfl
